import Mathlib

/-!
Formal model of the finsim core from `src/returns.rs`: the return generator
`gen_returns` and the leverage accumulator `accumulate`.

Floating-point values appearing in the generator are modelled by `F64`: a
finite real number, one of the two infinities, or NaN.  Arithmetic on finite
values is exact real arithmetic (rounding is not modelled); the special-value
propagation rules follow IEEE 754 as implemented by Rust `f64`, except that
the sign of zero is not tracked (every zero behaves as `+0.0`, which is the
value all relevant variables are initialised to in the source).

The accumulator operates on already-produced return values and all its claims
are identities of real arithmetic, so it is modelled directly over `ℝ`.

The random source and the sampling distribution live in the external `rand`
and `rand_distr` crates; they are modelled by an abstract stream `z : ℕ → ℝ`
of standard-normal draws (the ziggurat sampler only ever produces finite
values) together with the documented contract of `LogNormal::new` /
`Normal::new` (construction fails exactly when the standard deviation is
negative or NaN) and the definition of a log-normal sample as
`exp (mu + sigma * z)`.
-/

/-- Floating-point value: a finite real, positive infinity, negative infinity
or NaN.  Zero signs are not tracked. -/
inductive F64 where
  | fin (x : ℝ)
  | inf
  | ninf
  | nan

/-- IEEE addition on `F64` (exact on finite values). -/
noncomputable def fadd : F64 → F64 → F64
  | .nan, _ => .nan
  | _, .nan => .nan
  | .inf, .ninf => .nan
  | .ninf, .inf => .nan
  | .inf, _ => .inf
  | _, .inf => .inf
  | .ninf, _ => .ninf
  | _, .ninf => .ninf
  | .fin a, .fin b => .fin (a + b)

/-- IEEE subtraction on `F64` (exact on finite values). -/
noncomputable def fsub : F64 → F64 → F64
  | .nan, _ => .nan
  | _, .nan => .nan
  | .inf, .inf => .nan
  | .ninf, .ninf => .nan
  | .inf, _ => .inf
  | .ninf, _ => .ninf
  | _, .inf => .ninf
  | _, .ninf => .inf
  | .fin a, .fin b => .fin (a - b)

/-- IEEE multiplication on `F64` (exact on finite values); an infinity times
zero is NaN. -/
noncomputable def fmul : F64 → F64 → F64
  | .nan, _ => .nan
  | _, .nan => .nan
  | .inf, .inf => .inf
  | .inf, .ninf => .ninf
  | .ninf, .inf => .ninf
  | .ninf, .ninf => .inf
  | .inf, .fin b => if 0 < b then .inf else if b < 0 then .ninf else .nan
  | .fin a, .inf => if 0 < a then .inf else if a < 0 then .ninf else .nan
  | .ninf, .fin b => if 0 < b then .ninf else if b < 0 then .inf else .nan
  | .fin a, .ninf => if 0 < a then .ninf else if a < 0 then .inf else .nan
  | .fin a, .fin b => .fin (a * b)

/-- IEEE division on `F64` (exact on finite values): a nonzero finite number
divided by zero gives a signed infinity (the zero is `+0`), zero divided by
zero gives NaN, a finite number divided by an infinity gives zero. -/
noncomputable def fdiv : F64 → F64 → F64
  | .nan, _ => .nan
  | _, .nan => .nan
  | .inf, .inf => .nan
  | .inf, .ninf => .nan
  | .ninf, .inf => .nan
  | .ninf, .ninf => .nan
  | .inf, .fin b => if 0 ≤ b then .inf else .ninf
  | .ninf, .fin b => if 0 ≤ b then .ninf else .inf
  | .fin _, .inf => .fin 0
  | .fin _, .ninf => .fin 0
  | .fin a, .fin b =>
    if b = 0 then (if 0 < a then .inf else if a < 0 then .ninf else .nan)
    else .fin (a / b)

/-- Rust `f64::ln`: natural logarithm; `ln 0 = -∞`, `ln` of a negative
number is NaN. -/
noncomputable def fln : F64 → F64
  | .fin x => if 0 < x then .fin (Real.log x) else if x = 0 then .ninf else .nan
  | .inf => .inf
  | .ninf => .nan
  | .nan => .nan

/-- Rust `f64::sqrt`: square root; `sqrt` of a negative number is NaN. -/
noncomputable def fsqrt : F64 → F64
  | .fin x => if 0 ≤ x then .fin (Real.sqrt x) else .nan
  | .inf => .inf
  | .ninf => .nan
  | .nan => .nan

/-- Rust `f64::exp`. -/
noncomputable def fexp : F64 → F64
  | .fin x => .fin (Real.exp x)
  | .inf => .inf
  | .ninf => .fin 0
  | .nan => .nan

/-- Rust `f64::powi(2)`, i.e. squaring by self-multiplication. -/
noncomputable def fpowi2 (x : F64) : F64 := fmul x x

/-- Rust `f64::max`: NaN is ignored when the other operand is not NaN. -/
noncomputable def fmax : F64 → F64 → F64
  | .nan, b => b
  | a, .nan => a
  | .inf, _ => .inf
  | _, .inf => .inf
  | .ninf, b => b
  | a, .ninf => a
  | .fin a, .fin b => .fin (max a b)

/-- Negativity of an `F64` value; NaN is unordered, hence not negative. -/
def F64.isNeg : F64 → Prop
  | .fin x => x < 0
  | .inf => False
  | .ninf => True
  | .nan => False

/-- Constant `SECONDS_PER_YEAR` from `src/returns.rs`. -/
def SECONDS_PER_YEAR : ℝ := 31556952

/-- Argument struct `GenReturnsArgs` from `src/returns.rs` (the `usize`
fields are natural numbers, the `f64` statistics are parsed finite reals). -/
structure GenReturnsArgs where
  total_seconds : Option ℕ
  interval_seconds : Option ℕ
  num_points : ℕ
  yearly_mean : ℝ
  yearly_stddev : ℝ
  seed : Option ℕ

/-- Sampling parameters derived inside `gen_returns` (lines 35-51 of
`src/returns.rs`). -/
structure SamplingParams where
  interval_seconds : F64
  total_seconds : F64
  ticks_per_year : F64
  tick_mu : F64
  tick_sigma : F64

/-- Parameter derivation performed by `gen_returns`: resolve the time grid
(both variables start at `0.0`; `if let Some(s) = total_seconds` takes
priority over `interval_seconds`), log-transform the yearly statistics and
scale them to per-tick values. -/
noncomputable def gen_returns_params (args : GenReturnsArgs) : SamplingParams :=
  let num_points_f : F64 := .fin (args.num_points : ℝ)
  let ts : F64 × F64 :=
    match args.total_seconds, args.interval_seconds with
    | some s, _ => (fdiv (.fin (s : ℝ)) num_points_f, .fin (s : ℝ))
    | none, some s => (.fin (s : ℝ), fmul (.fin (s : ℝ)) num_points_f)
    | none, none => (.fin 0, .fin 0)
  let yearly_mu := fln (.fin args.yearly_mean)
  let yearly_sigma := fln (.fin args.yearly_stddev)
  let ticks_per_year := fdiv (.fin SECONDS_PER_YEAR) ts.1
  let tick_mu := fdiv yearly_mu ticks_per_year
  let tick_sigma := fsqrt (fdiv (fpowi2 yearly_sigma) ticks_per_year)
  ⟨ts.1, ts.2, ticks_per_year, tick_mu, tick_sigma⟩

/-- Modelled from the rand_distr crate (a dependency, not repository code):
`LogNormal::new(mu, sigma)` delegates to `Normal::new`, which fails exactly
when `!(std_dev >= 0.0)`, i.e. when the standard deviation is negative or
NaN.  On success the distribution is the parameter pair. -/
noncomputable def logNormalNew (mu sigma : F64) : Option (F64 × F64) :=
  match sigma with
  | .fin x => if 0 ≤ x then some (mu, .fin x) else none
  | .inf => some (mu, .inf)
  | .ninf => none
  | .nan => none

/-- Modelled from the rand_distr crate: a `LogNormal (mu, sigma)` sample is
`exp` of a `Normal (mu, sigma)` sample, which is `mu + sigma * z` for a
standard-normal draw `z` (always finite). -/
noncomputable def logNormalSample (mu sigma : F64) (z : ℝ) : F64 :=
  fexp (fadd mu (fmul sigma (.fin z)))

/-- Function `gen_returns` from `src/returns.rs`: derive the sampling
parameters, build the log-normal distribution (`none` models the `unwrap`
panicking), then draw `num_points` samples from the standard-normal stream
`z` that abstracts the random source. -/
noncomputable def gen_returns (args : GenReturnsArgs) (z : ℕ → ℝ) :
    Option (List F64) :=
  (logNormalNew (gen_returns_params args).tick_mu
      (gen_returns_params args).tick_sigma).map fun d =>
    (List.range args.num_points).map fun i => logNormalSample d.1 d.2 (z i)

/-- Argument struct `AccumulateArgs` from `src/returns.rs`. -/
structure AccumulateArgs where
  accumulate : Bool
  start_value : ℝ
  continuous_leverage : Option ℝ
  pointwise_leverage : Option ℝ
  initial_leverage : Option ℝ

/-- Running-product scan: models the Rust idiom
`.map(|r| {let v = acc * r; acc = v; v})`, which multiplies the accumulator
by each element and emits every intermediate value. -/
def scanMul (acc : ℝ) : List ℝ → List ℝ
  | [] => []
  | r :: rs => (acc * r) :: scanMul (acc * r) rs

/-- Per-tick pointwise-leverage multiplier `(1.0 + ((r - 1.0) * f)).max(0.0)`
from the `pointwise_leverage` branch of `accumulate`. -/
noncomputable def pointwiseMultiplier (f r : ℝ) : ℝ := max (1 + (r - 1) * f) 0

/-- Per-tick pointwise-leverage multiplier evaluated in `F64` arithmetic, so
that non-finite inputs are covered as well. -/
noncomputable def pointwiseMultiplierF (f r : F64) : F64 :=
  fmax (fadd (.fin 1) (fmul (fsub r (.fin 1)) f)) (.fin 0)

/-- Function `accumulate` from `src/returns.rs`: early return of the input
when the `accumulate` flag is unset, otherwise a leveraged running-product
scan chosen by the first present leverage option, in source order. -/
noncomputable def accumulate (returns : List ℝ) (args : AccumulateArgs) :
    List ℝ :=
  if !args.accumulate then returns
  else
    match args.continuous_leverage with
    | some f => scanMul args.start_value (returns.map fun r => r ^ f)
    | none =>
      match args.pointwise_leverage with
      | some f => scanMul args.start_value (returns.map fun r => pointwiseMultiplier f r)
      | none =>
        match args.initial_leverage with
        | some f =>
          (scanMul (args.start_value * f) returns).map
            fun a => a - args.start_value * (f - 1)
        | none => scanMul args.start_value returns

/-- Modelled from the spec: the pointwise-leverage accumulation described in
section 4.2, a left scan starting from `acc = start_value` that at each tick
updates `acc` to `acc * max (0, 1 + (r - 1) * f)` and emits the updated
accumulator. -/
noncomputable def pointwiseScanSpec (f acc : ℝ) : List ℝ → List ℝ
  | [] => []
  | r :: rs =>
    acc * max 0 (1 + (r - 1) * f) :: pointwiseScanSpec f (acc * max 0 (1 + (r - 1) * f)) rs

/-! Helper lemmas about the `F64` operations. -/

theorem fdiv_fin_fin (a b : ℝ) (hb : b ≠ 0) :
    fdiv (.fin a) (.fin b) = .fin (a / b) := by
  simp [fdiv, hb]

theorem fmul_fin_fin (a b : ℝ) : fmul (.fin a) (.fin b) = .fin (a * b) := rfl

theorem fpowi2_fin (x : ℝ) : fpowi2 (.fin x) = .fin (x ^ 2) := by
  simp [fpowi2, fmul, sq]

theorem fln_fin_pos (x : ℝ) (hx : 0 < x) : fln (.fin x) = .fin (Real.log x) := by
  simp [fln, hx]

theorem fsqrt_fin_nonneg (x : ℝ) (hx : 0 ≤ x) :
    fsqrt (.fin x) = .fin (Real.sqrt x) := by
  simp [fsqrt, hx]

/-! Structural lemmas relating the derived sampling parameters. -/

theorem gen_returns_params_ticks (args : GenReturnsArgs) :
    (gen_returns_params args).ticks_per_year =
      fdiv (.fin SECONDS_PER_YEAR) (gen_returns_params args).interval_seconds := by
  rcases args with ⟨_ | t, _ | s, np, ym, ys, sd⟩ <;> rfl

theorem gen_returns_params_mu (args : GenReturnsArgs) :
    (gen_returns_params args).tick_mu =
      fdiv (fln (.fin args.yearly_mean)) (gen_returns_params args).ticks_per_year := by
  rcases args with ⟨_ | t, _ | s, np, ym, ys, sd⟩ <;> rfl

theorem gen_returns_params_sigma (args : GenReturnsArgs) :
    (gen_returns_params args).tick_sigma =
      fsqrt (fdiv (fpowi2 (fln (.fin args.yearly_stddev)))
        (gen_returns_params args).ticks_per_year) := by
  rcases args with ⟨_ | t, _ | s, np, ym, ys, sd⟩ <;> rfl

theorem gen_returns_params_of_interval_fin (args : GenReturnsArgs) (i : ℝ)
    (hi : (gen_returns_params args).interval_seconds = .fin i) (hipos : 0 < i)
    (hmean : 0 < args.yearly_mean) (hstd : 0 < args.yearly_stddev) :
    (gen_returns_params args).ticks_per_year = .fin (SECONDS_PER_YEAR / i) ∧
      (gen_returns_params args).tick_mu =
        .fin (Real.log args.yearly_mean / (SECONDS_PER_YEAR / i)) ∧
      (gen_returns_params args).tick_sigma =
        .fin (Real.sqrt (Real.log args.yearly_stddev ^ 2 / (SECONDS_PER_YEAR / i))) := by
  have hS : (0 : ℝ) < SECONDS_PER_YEAR := by norm_num [SECONDS_PER_YEAR]
  have htpos : 0 < SECONDS_PER_YEAR / i := div_pos hS hipos
  have hticks : (gen_returns_params args).ticks_per_year = .fin (SECONDS_PER_YEAR / i) := by
    rw [gen_returns_params_ticks, hi, fdiv_fin_fin _ _ (ne_of_gt hipos)]
  refine ⟨hticks, ?_, ?_⟩
  · rw [gen_returns_params_mu, hticks, fln_fin_pos _ hmean,
      fdiv_fin_fin _ _ (ne_of_gt htpos)]
  · rw [gen_returns_params_sigma, hticks, fln_fin_pos _ hstd, fpowi2_fin,
      fdiv_fin_fin _ _ (ne_of_gt htpos),
      fsqrt_fin_nonneg _ (div_nonneg (sq_nonneg _) htpos.le)]

/-! Helper lemmas about the running-product scan. -/

theorem scanMul_length (a : ℝ) (l : List ℝ) : (scanMul a l).length = l.length := by
  induction l generalizing a with
  | nil => rfl
  | cons r rs ih => simp [scanMul, ih]

theorem scanMul_getElem? (l : List ℝ) (a : ℝ) (i : ℕ) (h : i < l.length) :
    (scanMul a l)[i]? = some (a * (l.take (i + 1)).prod) := by
  induction l generalizing a i with
  | nil => simp at h
  | cons r rs ih =>
    cases i with
    | zero => simp [scanMul]
    | succ j =>
      have hj : j < rs.length := by simpa using h
      simp [scanMul, ih (a * r) j hj, mul_assoc]

theorem scanMul_pointwise (f a : ℝ) (l : List ℝ) :
    scanMul a (l.map fun r => pointwiseMultiplier f r) = pointwiseScanSpec f a l := by
  induction l generalizing a with
  | nil => rfl
  | cons r rs ih =>
    have hpm : pointwiseMultiplier f r = max 0 (1 + (r - 1) * f) := max_comm _ _
    show (a * pointwiseMultiplier f r) ::
        scanMul (a * pointwiseMultiplier f r) (rs.map fun r => pointwiseMultiplier f r) =
      pointwiseScanSpec f a (r :: rs)
    rw [ih, hpm]
    rfl

theorem accumulate_length_eq (rets : List ℝ) (args : AccumulateArgs) :
    (accumulate rets args).length = rets.length := by
  rcases args with ⟨a, V, cf, pf, ilf⟩
  cases a <;> rcases cf with _ | f <;> rcases pf with _ | g <;>
    rcases ilf with _ | k <;> simp [accumulate, scanMul_length]

theorem gen_returns_length_eq (args : GenReturnsArgs) (z : ℕ → ℝ) (l : List F64)
    (h : gen_returns args z = some l) : l.length = args.num_points := by
  unfold gen_returns at h
  rw [Option.map_eq_some'] at h
  obtain ⟨d, -, rfl⟩ := h
  simp

/-- C2: accumulating with the plain Compound policy (accumulate flag set, no
leverage factor) emits at position i the start value times the product of the
first i+1 returns; the concrete seven-element scenario from the test suite
yields the running product scaled by 100, with the stated final value. -/
theorem compound_identity :
    (∀ (rets : List ℝ) (V : ℝ) (i : ℕ), i < rets.length →
      (accumulate rets ⟨true, V, none, none, none⟩)[i]? =
        some (V * (rets.take (i + 1)).prod)) ∧
    accumulate [1.04, 1.01, 0.99, 0.98, 1.05, 1.1, 0.4]
        ⟨true, 100, none, none, none⟩ =
      [100 * 1.04, 100 * 1.04 * 1.01, 100 * 1.04 * 1.01 * 0.99,
        100 * 1.04 * 1.01 * 0.99 * 0.98,
        100 * 1.04 * 1.01 * 0.99 * 0.98 * 1.05,
        100 * 1.04 * 1.01 * 0.99 * 0.98 * 1.05 * 1.1,
        100 * 1.04 * 1.01 * 0.99 * 0.98 * 1.05 * 1.1 * 0.4] := by
  constructor
  · intro rets V i h
    simpa [accumulate] using scanMul_getElem? rets V i h
  · norm_num [accumulate, scanMul]

/-- Witness for the compounding identity at a concrete input. -/
theorem compound_identity_witness :
    0 < ([2, 3] : List ℝ).length ∧
      (accumulate [2, 3] ⟨true, 5, none, none, none⟩)[0]? =
        some (5 * (([2, 3] : List ℝ).take (0 + 1)).prod) :=
  ⟨by norm_num, compound_identity.1 [2, 3] 5 0 (by norm_num)⟩

/-- C3: accumulation under PointwiseLeverage f is the left scan that starts
from acc = start_value and at each tick updates acc to
acc * max (0, 1 + (r - 1) * f), emitting the updated accumulator. -/
theorem pointwise_leverage_scan (rets : List ℝ) (V f : ℝ) :
    accumulate rets ⟨true, V, none, some f, none⟩ = pointwiseScanSpec f V rets := by
  simpa [accumulate] using scanMul_pointwise f V rets

/-- C4: accumulation under InitialLeverage f emits at position i the value
V * f * product (returns[0..=i]) - V * (f - 1). -/
theorem initial_leverage_identity (rets : List ℝ) (V f : ℝ) (i : ℕ)
    (h : i < rets.length) :
    (accumulate rets ⟨true, V, none, none, some f⟩)[i]? =
      some (V * f * (rets.take (i + 1)).prod - V * (f - 1)) := by
  simp [accumulate, List.getElem?_map, scanMul_getElem? rets (V * f) i h]

/-- Witness for the initial-leverage identity at a concrete input. -/
theorem initial_leverage_identity_witness :
    1 < ([2, 3] : List ℝ).length ∧
      (accumulate [2, 3] ⟨true, 5, none, none, some 2⟩)[1]? =
        some (5 * 2 * (([2, 3] : List ℝ).take (1 + 1)).prod - 5 * (2 - 1)) :=
  ⟨by norm_num, initial_leverage_identity [2, 3] 5 2 1 (by norm_num)⟩

/-- C5: accumulation under ContinuousLeverage f emits at position i the value
V times the product of r ^ f over the first i+1 returns. -/
theorem continuous_leverage_identity (rets : List ℝ) (V f : ℝ) (i : ℕ)
    (h : i < rets.length) :
    (accumulate rets ⟨true, V, some f, none, none⟩)[i]? =
      some (V * ((rets.take (i + 1)).map fun r => r ^ f).prod) := by
  have h' : i < (rets.map fun r => r ^ f).length := by simpa using h
  simpa [accumulate, List.map_take] using
    scanMul_getElem? (rets.map fun r => r ^ f) V i h'

/-- Witness for the continuous-leverage identity at a concrete input. -/
theorem continuous_leverage_identity_witness :
    0 < ([2] : List ℝ).length ∧
      (accumulate [2] ⟨true, 1, some 3, none, none⟩)[0]? =
        some (1 * ((([2] : List ℝ).take (0 + 1)).map fun r => r ^ (3 : ℝ)).prod) :=
  ⟨by norm_num, continuous_leverage_identity [2] 1 3 0 (by norm_num)⟩

/-- C6: the pointwise-leverage per-tick multiplier max (0, 1 + (r - 1) * f) is
never negative, for every real factor and return and also for every F64
factor and return, non-finite values included. -/
theorem pointwise_floor :
    (∀ f r : ℝ, 0 ≤ pointwiseMultiplier f r) ∧
      ∀ f r : F64, ¬ (pointwiseMultiplierF f r).isNeg := by
  constructor
  · intro f r
    exact le_max_right _ 0
  · intro f r
    unfold pointwiseMultiplierF
    rcases fadd (.fin 1) (fmul (fsub r (.fin 1)) f) with x | _ | _ | _ <;>
      simp [fmax, F64.isNeg, le_max_right]

/-- C7: the generator yields exactly num_points values whenever it does not
panic, and accumulate yields an output of the same length as its input; an
empty input yields an empty output under every configuration. -/
theorem length_preservation :
    (∀ (args : GenReturnsArgs) (z : ℕ → ℝ) (l : List F64),
        gen_returns args z = some l → l.length = args.num_points) ∧
      (∀ (rets : List ℝ) (args : AccumulateArgs),
        (accumulate rets args).length = rets.length) ∧
      ∀ args : AccumulateArgs, accumulate [] args = [] := by
  refine ⟨gen_returns_length_eq, accumulate_length_eq, ?_⟩
  intro args
  have h := accumulate_length_eq [] args
  simpa [List.length_eq_zero] using h

/-- Witness for length preservation at a concrete generator input. -/
theorem length_preservation_witness :
    gen_returns ⟨none, some 1, 0, 1, 1, none⟩ (fun _ => 0) = some [] ∧
      ([] : List F64).length = (0 : ℕ) := by
  have h : gen_returns ⟨none, some 1, 0, 1, 1, none⟩ (fun _ => 0) = some [] := by
    norm_num [gen_returns, gen_returns_params, logNormalNew, fln, fdiv, fmul,
      fpowi2, fsqrt, SECONDS_PER_YEAR, Real.log_one, Real.sqrt_nonneg]
  exact ⟨h, length_preservation.1 ⟨none, some 1, 0, 1, 1, none⟩ (fun _ => 0) [] h⟩

/-- C8: when the accumulate flag is false the input is returned unchanged,
regardless of the leverage options and start value supplied. -/
theorem accumulate_none_passthrough (rets : List ℝ) (V : ℝ)
    (cf pf ilf : Option ℝ) :
    accumulate rets ⟨false, V, cf, pf, ilf⟩ = rets := rfl

/-- C1: with exactly one time field present (on a valid grid: positive field
values, at least one point) and positive yearly statistics, the sampling
parameters are derived as interval = total / num_points (or
total = interval * num_points), ticks_per_year = 31556952 / interval,
tick_mu = ln mean / ticks_per_year and
tick_sigma = sqrt (ln stddev ^ 2 / ticks_per_year). -/
theorem sampling_parameter_derivation (args : GenReturnsArgs)
    (hone : args.total_seconds.isSome ≠ args.interval_seconds.isSome)
    (hmean : 0 < args.yearly_mean) (hstd : 0 < args.yearly_stddev)
    (hnp : 1 ≤ args.num_points)
    (htot : ∀ t ∈ args.total_seconds, 1 ≤ t)
    (hint : ∀ s ∈ args.interval_seconds, 1 ≤ s) :
    ∃ i : ℝ, 0 < i ∧
      (gen_returns_params args).interval_seconds = .fin i ∧
      (∀ t, args.total_seconds = some t →
        i = (t : ℝ) / (args.num_points : ℝ) ∧
          (gen_returns_params args).total_seconds = .fin (t : ℝ)) ∧
      (∀ s, args.interval_seconds = some s →
        i = (s : ℝ) ∧
          (gen_returns_params args).total_seconds =
            .fin ((s : ℝ) * (args.num_points : ℝ))) ∧
      (gen_returns_params args).ticks_per_year = .fin (31556952 / i) ∧
      (gen_returns_params args).tick_mu =
        .fin (Real.log args.yearly_mean / (31556952 / i)) ∧
      (gen_returns_params args).tick_sigma =
        .fin (Real.sqrt (Real.log args.yearly_stddev ^ 2 / (31556952 / i))) := by
  rcases args with ⟨tso, io, np, ym, ys, sd⟩
  have hnpR : (0 : ℝ) < (np : ℝ) := by exact_mod_cast hnp
  rcases tso with _ | t
  · rcases io with _ | s
    · simp at hone
    · have hs1 : 1 ≤ s := hint s (Option.mem_def.mpr rfl)
      have hsR : (0 : ℝ) < (s : ℝ) := by exact_mod_cast hs1
      have hi : (gen_returns_params ⟨none, some s, np, ym, ys, sd⟩).interval_seconds =
          .fin (s : ℝ) := rfl
      obtain ⟨hticks, hmu, hsig⟩ :=
        gen_returns_params_of_interval_fin ⟨none, some s, np, ym, ys, sd⟩ (s : ℝ)
          hi hsR hmean hstd
      refine ⟨(s : ℝ), hsR, hi, ?_, ?_, ?_, ?_, ?_⟩
      · intro t ht
        exact absurd ht (by simp)
      · intro s' hs'
        rw [Option.some_inj] at hs'
        subst hs'
        exact ⟨rfl, rfl⟩
      · simpa [SECONDS_PER_YEAR] using hticks
      · simpa [SECONDS_PER_YEAR] using hmu
      · simpa [SECONDS_PER_YEAR] using hsig
  · rcases io with _ | s
    · have ht1 : 1 ≤ t := htot t (Option.mem_def.mpr rfl)
      have htR : (0 : ℝ) < (t : ℝ) := by exact_mod_cast ht1
      have hi : (gen_returns_params ⟨some t, none, np, ym, ys, sd⟩).interval_seconds =
          .fin ((t : ℝ) / (np : ℝ)) := by
        show fdiv (.fin (t : ℝ)) (.fin (np : ℝ)) = _
        exact fdiv_fin_fin _ _ (ne_of_gt hnpR)
      have hipos : (0 : ℝ) < (t : ℝ) / (np : ℝ) := div_pos htR hnpR
      obtain ⟨hticks, hmu, hsig⟩ :=
        gen_returns_params_of_interval_fin ⟨some t, none, np, ym, ys, sd⟩ _
          hi hipos hmean hstd
      refine ⟨_, hipos, hi, ?_, ?_, ?_, ?_, ?_⟩
      · intro t' ht'
        rw [Option.some_inj] at ht'
        subst ht'
        exact ⟨rfl, rfl⟩
      · intro s' hs'
        exact absurd hs' (by simp)
      · simpa [SECONDS_PER_YEAR] using hticks
      · simpa [SECONDS_PER_YEAR] using hmu
      · simpa [SECONDS_PER_YEAR] using hsig
    · simp at hone

/-- Witness for the parameter derivation at a concrete input. -/
theorem sampling_parameter_derivation_witness :
    ∃ i : ℝ, 0 < i ∧
      (gen_returns_params ⟨none, some 1, 1, 2, 2, none⟩).interval_seconds = .fin i ∧
      (∀ t, (none : Option ℕ) = some t →
        i = (t : ℝ) / ((1 : ℕ) : ℝ) ∧
          (gen_returns_params ⟨none, some 1, 1, 2, 2, none⟩).total_seconds =
            .fin (t : ℝ)) ∧
      (∀ s, (some 1 : Option ℕ) = some s →
        i = (s : ℝ) ∧
          (gen_returns_params ⟨none, some 1, 1, 2, 2, none⟩).total_seconds =
            .fin ((s : ℝ) * ((1 : ℕ) : ℝ))) ∧
      (gen_returns_params ⟨none, some 1, 1, 2, 2, none⟩).ticks_per_year =
        .fin (31556952 / i) ∧
      (gen_returns_params ⟨none, some 1, 1, 2, 2, none⟩).tick_mu =
        .fin (Real.log 2 / (31556952 / i)) ∧
      (gen_returns_params ⟨none, some 1, 1, 2, 2, none⟩).tick_sigma =
        .fin (Real.sqrt (Real.log 2 ^ 2 / (31556952 / i))) :=
  sampling_parameter_derivation ⟨none, some 1, 1, 2, 2, none⟩ (by decide)
    (by norm_num) (by norm_num) (by decide)
    (fun t ht => absurd ht (Option.not_mem_none t))
    (fun s hs => by rw [Option.mem_def, Option.some_inj] at hs; omega)

/-- C9: with strictly positive yearly statistics and a strictly positive
resolved interval, the computed tick_sigma is a non-negative finite value and
the log-normal construction succeeds, so the unwrap cannot panic. -/
theorem tick_sigma_safe (args : GenReturnsArgs)
    (hmean : 0 < args.yearly_mean) (hstd : 0 < args.yearly_stddev)
    (hiv : ∃ i : ℝ, (gen_returns_params args).interval_seconds = .fin i ∧ 0 < i) :
    (∃ s : ℝ, 0 ≤ s ∧ (gen_returns_params args).tick_sigma = .fin s) ∧
      (logNormalNew (gen_returns_params args).tick_mu
        (gen_returns_params args).tick_sigma).isSome = true := by
  obtain ⟨i, hi, hipos⟩ := hiv
  obtain ⟨-, -, hsig⟩ :=
    gen_returns_params_of_interval_fin args i hi hipos hmean hstd
  refine ⟨⟨_, Real.sqrt_nonneg _, hsig⟩, ?_⟩
  rw [hsig]
  simp [logNormalNew, Real.sqrt_nonneg]

/-- Witness for the unwrap-safety claim at a concrete input. -/
theorem tick_sigma_safe_witness :
    (∃ s : ℝ, 0 ≤ s ∧
        (gen_returns_params ⟨none, some 1, 1, 2, 2, none⟩).tick_sigma = .fin s) ∧
      (logNormalNew (gen_returns_params ⟨none, some 1, 1, 2, 2, none⟩).tick_mu
        (gen_returns_params ⟨none, some 1, 1, 2, 2, none⟩).tick_sigma).isSome = true :=
  tick_sigma_safe ⟨none, some 1, 1, 2, 2, none⟩ (by norm_num) (by norm_num)
    ⟨((1 : ℕ) : ℝ), rfl, by norm_num⟩

/-- C10: with neither time field present and positive statistics, the
resolved interval stays 0, ticks_per_year is +infinity, tick_mu and
tick_sigma are both 0, and the generator succeeds with num_points copies of
the constant 1. -/
theorem gen_returns_no_time_field (args : GenReturnsArgs)
    (ht : args.total_seconds = none) (hio : args.interval_seconds = none)
    (hmean : 0 < args.yearly_mean) (hstd : 0 < args.yearly_stddev) (z : ℕ → ℝ) :
    (gen_returns_params args).interval_seconds = .fin 0 ∧
      (gen_returns_params args).ticks_per_year = F64.inf ∧
      (gen_returns_params args).tick_mu = .fin 0 ∧
      (gen_returns_params args).tick_sigma = .fin 0 ∧
      gen_returns args z = some (List.replicate args.num_points (.fin 1)) := by
  rcases args with ⟨tso, io, np, ym, ys, sd⟩
  subst ht hio
  have hiv : (gen_returns_params ⟨none, none, np, ym, ys, sd⟩).interval_seconds =
      .fin 0 := rfl
  have hticks : (gen_returns_params ⟨none, none, np, ym, ys, sd⟩).ticks_per_year =
      F64.inf := by
    rw [gen_returns_params_ticks, hiv]
    norm_num [fdiv, SECONDS_PER_YEAR]
  have hmu : (gen_returns_params ⟨none, none, np, ym, ys, sd⟩).tick_mu = .fin 0 := by
    rw [gen_returns_params_mu, hticks, fln_fin_pos _ hmean]
    rfl
  have hsig : (gen_returns_params ⟨none, none, np, ym, ys, sd⟩).tick_sigma =
      .fin 0 := by
    rw [gen_returns_params_sigma, hticks, fln_fin_pos _ hstd, fpowi2_fin]
    show fsqrt (fdiv (.fin (Real.log ys ^ 2)) F64.inf) = .fin 0
    norm_num [fdiv, fsqrt, Real.sqrt_zero]
  refine ⟨hiv, hticks, hmu, hsig, ?_⟩
  unfold gen_returns
  rw [hmu, hsig]
  simp [logNormalNew, logNormalSample, fadd, fmul, fexp, Real.exp_zero,
    List.map_const', List.length_range]

/-- Witness for the missing-time-field behaviour at a concrete input. -/
theorem gen_returns_no_time_field_witness :
    (gen_returns_params ⟨none, none, 2, 2, 2, none⟩).interval_seconds = .fin 0 ∧
      (gen_returns_params ⟨none, none, 2, 2, 2, none⟩).ticks_per_year = F64.inf ∧
      (gen_returns_params ⟨none, none, 2, 2, 2, none⟩).tick_mu = .fin 0 ∧
      (gen_returns_params ⟨none, none, 2, 2, 2, none⟩).tick_sigma = .fin 0 ∧
      gen_returns ⟨none, none, 2, 2, 2, none⟩ (fun _ => 0) =
        some (List.replicate 2 (.fin 1)) :=
  gen_returns_no_time_field ⟨none, none, 2, 2, 2, none⟩ rfl rfl (by norm_num)
    (by norm_num) (fun _ => 0)
